import Mathlib

/-
Verification of the failure/log reporting core of
src/SARD-testsuite-92/SATE/dovecot-1.2.0/src/lib/failures.c.

The shallow embedding below translates the message-emission and delivery
core of failures.c into Lean: the blocking writer log_fd_write, the three
reentrancy-guarded handlers (default_handler, syslog_handler,
internal_handler), the fatal-termination protocol (default_fatal_finish and
the three fatal handlers), the level entry point i_panic, and the
out-of-band peer-address frame of i_set_failure_ip. Collaborators of
failures.c that live in files not present under src/ (printf-format-fix.c,
str.c/strfuncs.c, write-full.c, failures.h) are modelled from the spec and
marked as such in their doc comments.
-/

namespace Failures

/-- Printf-style format tokens: a literal character or a one-character
conversion specifier introduced by a percent sign. Conversion specifiers
are modelled as single characters, which covers the specifiers these
claims need (s, d, c, the escape for a literal percent sign, m, n). -/
inductive FTok
  | lit (c : Char)
  | conv (c : Char)
deriving DecidableEq

/-- Parse a C format string into tokens: a percent sign followed by a
character becomes a conversion token, every other character is a literal.
A trailing lone percent sign is dropped. -/
def parseFormat : List Char → List FTok
  | [] => []
  | ['%'] => []
  | '%' :: c :: rest => FTok.conv c :: parseFormat rest
  | c :: rest => FTok.lit c :: parseFormat rest

/-- Modelled from the spec: vsnprintf-style argument application as
performed by str_vprintfa and t_strdup_vprintf (str.c and strfuncs.c are
not under src/). Arguments are pre-rendered strings and each
argument-consuming conversion takes the next one; the conversion m expands
to the errno message text; the conversion n is the write-count specifier:
it produces no output but performs a write-count store, recorded in the
boolean component of the result. -/
def applyFormat (e : List Char) : List FTok → List (List Char) → List Char × Bool
  | [], _ => ([], false)
  | FTok.lit c :: ts, args =>
    let r := applyFormat e ts args
    (c :: r.1, r.2)
  | FTok.conv c :: ts, args =>
    if c = '%' then
      let r := applyFormat e ts args
      ('%' :: r.1, r.2)
    else if c = 'm' then
      let r := applyFormat e ts args
      (e ++ r.1, r.2)
    else if c = 'n' then
      ((applyFormat e ts args).1, true)
    else
      match args with
      | [] => applyFormat e ts []
      | a :: rest =>
        let r := applyFormat e ts rest
        (a ++ r.1, r.2)

/-- Modelled from the spec: printf_format_fix (printf-format-fix.c is not
under src/) sanitizes a format string before arguments are applied: the
write-count conversion n is neutralized (removed) and the conversion m is
expanded to the errno message text. In failures.c only default_handler
calls it. -/
def printf_format_fix (e : List Char) : List FTok → List FTok
  | [] => []
  | t :: ts =>
    if t = FTok.conv 'n' then printf_format_fix e ts
    else if t = FTok.conv 'm' then e.map FTok.lit ++ printf_format_fix e ts
    else t :: printf_format_fix e ts

/-- Whether a token list contains a write-count conversion. -/
def hasNConv (ts : List FTok) : Bool :=
  ts.any fun t => decide (t = FTok.conv 'n')

/-- The errno values log_fd_write distinguishes: interrupted call,
would-block, out of space, and any other error. -/
inductive Errno
  | eintr
  | eagain
  | enospc
  | eother
deriving DecidableEq

/-- Result of one underlying write(2) call: k bytes written (k = 0 models
the zero-return case) or failure with the given errno. -/
inductive WriteRes
  | wrote (k : Nat)
  | werr (e : Errno)
deriving DecidableEq

/-- Embeds log_fd_write (failures.c:79-115). The OS is modelled by a script
of write(2) results, one per loop iteration. Returns (result, delivered):
result is some (0, none) on success, some (-1, some e) on failure with the
errno observed at failure, and none when the script is exhausted while the
loop would issue another write, or reports more bytes than were requested
(not a possible write(2) outcome); delivered is the byte sequence consumed
from the buffer, in order. A short write advances the buffer by exactly the
reported count; a zero return sets ENOSPC and fails; EINTR is retried while
the per-call eintr count (never reset within one call, as in the C local
eintr_count) stays below 3; EAGAIN waits for writability in a transient
ioloop and retries; any other errno fails. -/
def log_fd_write_run : List WriteRes → List Char → Nat → Option (Int × Option Errno) × List Char
  | [], _, _ => (none, [])
  | WriteRes.wrote k :: s, rem, ec =>
    if k = rem.length then (some (0, none), rem)
    else if k = 0 then (some (-1, some Errno.enospc), [])
    else if k < rem.length then
      let r := log_fd_write_run s (rem.drop k) ec
      (r.1, rem.take k ++ r.2)
    else (none, [])
  | WriteRes.werr e :: s, rem, ec =>
    if e = Errno.eintr then
      if ec + 1 < 3 then log_fd_write_run s rem (ec + 1)
      else (some (-1, some Errno.eintr), [])
    else if e = Errno.eagain then log_fd_write_run s rem ec
    else (some (-1, some e), [])

/-- The five log levels of enum log_type. -/
inductive LogType
  | info
  | warning
  | error
  | fatal
  | panic
deriving DecidableEq

/-- Embeds the array failure_log_type_prefixes (failures.c:18-24): the
human-readable label for each level. -/
def failure_log_type_labels : LogType → List Char
  | LogType.info => "Info: ".data
  | LogType.warning => "Warning: ".data
  | LogType.error => "Error: ".data
  | LogType.fatal => "Fatal: ".data
  | LogType.panic => "Panic: ".data

/-- Embeds the array log_type_internal_chars (failures.c:25-27): the
single-character level code used by the framed internal backend. -/
def log_type_internal_chars : LogType → Char
  | LogType.info => 'I'
  | LogType.warning => 'W'
  | LogType.error => 'E'
  | LogType.fatal => 'F'
  | LogType.panic => 'P'

/-- Modelled from the spec: the fatal status codes of failures.h (the
header is not under src/). The spec requires named, mutually distinct
reserved codes for log-open, log-write, log-error and out-of-memory
failures, plus a distinguished default sentinel; the concrete values are
immaterial to the claims, only their distinctness matters. -/
def FATAL_DEFAULT : Int := 89

def FATAL_LOGOPEN : Int := 80

def FATAL_LOGWRITE : Int := 81

def FATAL_LOGERROR : Int := 82

def FATAL_OUTOFMEM : Int := 83

/-- The process-wide destination state read by the handlers
(failures.c:36-38), together with the environment facts one emission
depends on: the strftime rendering of the configured timestamp format, the
errno message text used for the conversion m, the scripted write(2) results
for the log fd, and the outcome of write_full on fd 2 (write-full.c is not
under src/; modelled from the spec as an all-or-nothing blocking write). -/
structure FailCfg where
  logPfx : Option (List Char)
  log_stamp_format : Option (List Char)
  stamp_out : List Char
  failure_ignore_errors : Bool
  errno_text : List Char
  fd_script : List WriteRes
  write_full_ok : Bool

/-- Embeds log_prefix_add (failures.c:56-72): if a timestamp format is
configured and strftime produced output, append the rendered stamp; then
append the configured log prefix string, if any. -/
def log_pfx_add (cfg : FailCfg) : List Char :=
  (if cfg.log_stamp_format.isSome = true ∧ cfg.stamp_out ≠ [] then cfg.stamp_out else [])
    ++ cfg.logPfx.getD []

/-- Result of one guarded handler invocation: the int return value of the C
function, the byte sequence it handed to its writer (empty when the
recursion guard rejected the call), and whether a write-count conversion
was applied while formatting. -/
structure HandlerOut where
  ret : Int
  sent : List Char
  honoredN : Bool
deriving DecidableEq

/-- The formatted body default_handler builds from the caller's format
string and arguments: printf_format_fix is applied to the format before the
arguments are (failures.c:136). -/
def default_handler_body (cfg : FailCfg) (fmt : List Char) (args : List (List Char)) :
    List Char × Bool :=
  applyFormat cfg.errno_text (printf_format_fix cfg.errno_text (parseFormat fmt)) args

/-- The full message default_handler hands to log_fd_write: timestamp and
log prefix, the level label passed by the caller, the formatted body, and a
trailing newline (failures.c:130-138). -/
def default_handler_msg (cfg : FailCfg) (pfx fmt : List Char) (args : List (List Char)) :
    List Char :=
  log_pfx_add cfg ++ pfx ++ (default_handler_body cfg fmt args).1 ++ ['\n']

/-- Embeds default_handler (failures.c:117-147): reject when the recursion
counter is at the bound, otherwise format the message, hand it to
log_fd_write on the given fd script, and downgrade a failed write to
success when failure_ignore_errors is set. none when the write script does
not determine the write's outcome. -/
def default_handler (cfg : FailCfg) (recursed : Nat) (pfx fmt : List Char)
    (args : List (List Char)) : Option HandlerOut :=
  if 2 ≤ recursed then some ⟨-1, [], false⟩
  else
    let msg := default_handler_msg cfg pfx fmt args
    match (log_fd_write_run cfg.fd_script msg 0).1 with
    | none => none
    | some (r, _) =>
      some ⟨if r < 0 ∧ cfg.failure_ignore_errors = true then 0 else r, msg,
        (default_handler_body cfg fmt args).2⟩

/-- How a fatal-level emission terminates the process: abort() (abnormal
termination, no status), or failure_exit with the given status code. -/
inductive TermAction
  | abort
  | exitWith (status : Int)
deriving DecidableEq

/-- What a non-fatal handler invocation does: return normally, or terminate
the process through failure_exit with the given status. -/
inductive ErrAction
  | returned
  | exited (status : Int)
deriving DecidableEq

/-- Which built-in handler triple is installed in the handler registry:
the fd-backend defaults, the syslog triple of i_set_failure_syslog, or the
framed-internal triple of i_set_failure_internal. -/
inductive HandlerKind
  | defaultH
  | syslogH
  | internalH
deriving DecidableEq

/-- The message body syslog_handler hands to the syslog sink
(failures.c:297-303): log prefix, the level label only for Fatal and Panic,
then the fully realized user message (t_strdup_vprintf on the raw format,
with no printf_format_fix step). -/
def syslog_msg (cfg : FailCfg) (t : LogType) (fmt : List Char) (args : List (List Char)) :
    List Char :=
  cfg.logPfx.getD []
    ++ (if t = LogType.fatal ∨ t = LogType.panic then failure_log_type_labels t else [])
    ++ (applyFormat cfg.errno_text (parseFormat fmt) args).1

/-- Result of one syslog_handler invocation: the int return value, the
(severity, message) pair handed to the syslog sink if any, and whether a
write-count conversion was applied. -/
structure SyslogOut where
  ret : Int
  sent : Option (Nat × List Char)
  honoredN : Bool
deriving DecidableEq

/-- Embeds syslog_handler (failures.c:286-306): reject when the recursion
counter is at the bound, otherwise hand the message to syslog(3) and return
0. syslog(3) returns void, so whether delivery actually succeeded
(deliveryOk, recorded here as an environment fact) cannot be observed by
the code and does not enter the result; failure_ignore_errors is not
consulted either. -/
def syslog_handler (cfg : FailCfg) (recursed : Nat) (level : Nat) (t : LogType)
    (fmt : List Char) (args : List (List Char)) (deliveryOk : Bool) : SyslogOut :=
  if 2 ≤ recursed then ⟨-1, none, false⟩
  else ⟨0, some (level, syslog_msg cfg t fmt args),
    (applyFormat cfg.errno_text (parseFormat fmt) args).2⟩

/-- Modelled from syslog.h (not under src/): the level-to-severity mapping
of i_syslog_error_handler (failures.c:320-336) with the standard values
LOG_CRIT = 2, LOG_ERR = 3, LOG_WARNING = 4, LOG_INFO = 6. -/
def syslog_severity : LogType → Nat
  | LogType.info => 6
  | LogType.warning => 4
  | LogType.error => 3
  | LogType.fatal => 2
  | LogType.panic => 2

/-- Embeds i_syslog_error_handler (failures.c:318-340): map the level to a
syslog severity, emit, and terminate with FATAL_LOGERROR if the handler
failed. -/
def i_syslog_error_handler (cfg : FailCfg) (recursed : Nat) (t : LogType)
    (fmt : List Char) (args : List (List Char)) (deliveryOk : Bool) : ErrAction :=
  if (syslog_handler cfg recursed (syslog_severity t) t fmt args deliveryOk).ret < 0 then
    ErrAction.exited FATAL_LOGERROR
  else ErrAction.returned

/-- The frame internal_handler builds (failures.c:414-421): control byte 1,
the single-character level code, the formatted user message (raw format,
no printf_format_fix, no prefix and no timestamp), a trailing newline. -/
def internal_msg (cfg : FailCfg) (tc : Char) (fmt : List Char) (args : List (List Char)) :
    List Char :=
  Char.ofNat 1 :: tc :: (applyFormat cfg.errno_text (parseFormat fmt) args).1 ++ ['\n']

/-- Embeds internal_handler (failures.c:401-430): reject when the recursion
counter is at the bound, otherwise build the frame, hand it to write_full
on fd 2, and downgrade a failed write to success when
failure_ignore_errors is set. -/
def internal_handler (cfg : FailCfg) (recursed : Nat) (tc : Char)
    (fmt : List Char) (args : List (List Char)) : HandlerOut :=
  if 2 ≤ recursed then ⟨-1, [], false⟩
  else
    let msg := internal_msg cfg tc fmt args
    let r : Int := if cfg.write_full_ok then 0 else -1
    ⟨if r < 0 ∧ cfg.failure_ignore_errors = true then 0 else r, msg,
      (applyFormat cfg.errno_text (parseFormat fmt) args).2⟩

/-- Embeds i_internal_error_handler (failures.c:443-448): emit the frame and
terminate with FATAL_LOGERROR if the handler failed. -/
def i_internal_error_handler (cfg : FailCfg) (recursed : Nat) (t : LogType)
    (fmt : List Char) (args : List (List Char)) : ErrAction :=
  if (internal_handler cfg recursed (log_type_internal_chars t) fmt args).ret < 0 then
    ErrAction.exited FATAL_LOGERROR
  else ErrAction.returned

/-- Embeds default_error_handler (failures.c:175-188) at the non-info
levels, which write to the log fd: emit through default_handler and, if it
failed, terminate the process with FATAL_LOGWRITE via failure_exit
(failures.c:181-182). The LOG_TYPE_INFO branch writes to the separate info
fd and falls back to i_fatal_status (failures.c:183-186); it is not
modelled because no emission in this development is at Info level. -/
def default_error_handler (cfg : FailCfg) (recursed : Nat) (t : LogType)
    (fmt : List Char) (args : List (List Char)) : Option ErrAction :=
  (default_handler cfg recursed (failure_log_type_labels t) fmt args).map fun h =>
    if h.ret < 0 then ErrAction.exited FATAL_LOGWRITE else ErrAction.returned

/-- Embeds i_error (failures.c:229-239): dispatch LOG_TYPE_ERROR with the
given format and arguments to the installed error handler (the errno save
and restore around the call does not affect the emission's result). r is
the recursion counter of the installed handler's family and d the syslog
delivery fact. -/
def i_error (cfg : FailCfg) (eh : HandlerKind) (r : Nat) (fmt : List Char)
    (args : List (List Char)) (d : Bool) : Option ErrAction :=
  match eh with
  | HandlerKind.defaultH => default_error_handler cfg r LogType.error fmt args
  | HandlerKind.syslogH => some (i_syslog_error_handler cfg r LogType.error fmt args d)
  | HandlerKind.internalH => some (i_internal_error_handler cfg r LogType.error fmt args)

/-- Embeds default_fatal_finish (failures.c:149-163), including the
backtrace block of lines 154-157: on Panic or an out-of-memory status,
backtrace_get is attempted (backtrace-string.c is not under src/; its
success and the captured text are the inputs backtraceOk and bt) and on
success the backtrace is emitted through i_error, that is through the
installed error handler eh at its family counter rErr; that emission can
itself terminate the process through failure_exit, in which case control
never reaches the final dispatch. Only when no backtrace is emitted, or the
emission returns, does the final dispatch run: Panic aborts, any other
fatal level exits via failure_exit with the given status. -/
def default_fatal_finish (cfg : FailCfg) (eh : HandlerKind) (rErr : Nat)
    (backtraceOk d : Bool) (bt : List Char) (t : LogType) (status : Int) :
    Option TermAction :=
  if (t = LogType.panic ∨ status = FATAL_OUTOFMEM) ∧ backtraceOk = true then
    match i_error cfg eh rErr "Raw backtrace: %s".data [bt] d with
    | none => none
    | some (ErrAction.exited s) => some (TermAction.exitWith s)
    | some ErrAction.returned =>
      some (if t = LogType.panic then TermAction.abort else TermAction.exitWith status)
  else some (if t = LogType.panic then TermAction.abort else TermAction.exitWith status)

/-- Embeds default_fatal_handler (failures.c:165-173): emit through
default_handler on the log fd; if that failed and the requested status is
the default sentinel, upgrade it to FATAL_LOGWRITE; then finish. eh, rErr,
backtraceOk, d and bt are the environment default_fatal_finish consumes. -/
def default_fatal_handler (cfg : FailCfg) (recursed : Nat) (eh : HandlerKind) (rErr : Nat)
    (backtraceOk d : Bool) (bt : List Char) (t : LogType) (status : Int)
    (fmt : List Char) (args : List (List Char)) : Option TermAction :=
  match default_handler cfg recursed (failure_log_type_labels t) fmt args with
  | none => none
  | some h =>
    default_fatal_finish cfg eh rErr backtraceOk d bt t
      (if h.ret < 0 ∧ status = FATAL_DEFAULT then FATAL_LOGWRITE else status)

/-- Embeds i_syslog_fatal_handler (failures.c:308-316): emit at LOG_CRIT;
if the handler failed and the requested status is the default sentinel,
upgrade it to FATAL_LOGERROR; then finish. -/
def i_syslog_fatal_handler (cfg : FailCfg) (recursed : Nat) (eh : HandlerKind) (rErr : Nat)
    (backtraceOk d : Bool) (bt : List Char) (t : LogType) (status : Int)
    (fmt : List Char) (args : List (List Char)) : Option TermAction :=
  default_fatal_finish cfg eh rErr backtraceOk d bt t
    (if (syslog_handler cfg recursed 2 t fmt args d).ret < 0 ∧ status = FATAL_DEFAULT
     then FATAL_LOGERROR else status)

/-- Embeds i_internal_fatal_handler (failures.c:432-441): emit the frame
for the level's code; if the handler failed and the requested status is the
default sentinel, upgrade it to FATAL_LOGERROR; then finish. -/
def i_internal_fatal_handler (cfg : FailCfg) (recursed : Nat) (eh : HandlerKind) (rErr : Nat)
    (backtraceOk d : Bool) (bt : List Char) (t : LogType) (status : Int)
    (fmt : List Char) (args : List (List Char)) : Option TermAction :=
  default_fatal_finish cfg eh rErr backtraceOk d bt t
    (if (internal_handler cfg recursed (log_type_internal_chars t) fmt args).ret < 0
        ∧ status = FATAL_DEFAULT
     then FATAL_LOGERROR else status)

/-- Embeds i_panic (failures.c:202-209): dispatch LOG_TYPE_PANIC with
status 0 to the installed fatal handler. rFd, rSys and rInt are the three
per-family recursion counters at entry; under a matched triple the error
handler used for the backtrace emission is of the same backend, and its
family counter is the corresponding one of rFd, rSys, rInt. -/
def i_panic (cfg : FailCfg) (hk : HandlerKind) (rFd rSys rInt : Nat)
    (backtraceOk d : Bool) (bt fmt : List Char) (args : List (List Char)) :
    Option TermAction :=
  match hk with
  | HandlerKind.defaultH =>
    default_fatal_handler cfg rFd HandlerKind.defaultH rFd backtraceOk d bt
      LogType.panic 0 fmt args
  | HandlerKind.syslogH =>
    i_syslog_fatal_handler cfg rSys HandlerKind.syslogH rSys backtraceOk d bt
      LogType.panic 0 fmt args
  | HandlerKind.internalH =>
    i_internal_fatal_handler cfg rInt HandlerKind.internalH rInt backtraceOk d bt
      LogType.panic 0 fmt args

/-- Embeds i_set_failure_ip (failures.c:477-485): when the framed backend's
error handler is the installed error handler, write the out-of-band frame
control-byte 1, "Oip=", the address text, newline to fd 2; otherwise do
nothing. Returns the bytes written. net_ip2addr (network.c is not under
src/) is modelled by taking the address's textual form as input. -/
def i_set_failure_ip (eh : HandlerKind) (ipText : List Char) : List Char :=
  if eh = HandlerKind.internalH then
    Char.ofNat 1 :: "Oip=".data ++ ipText ++ ['\n']
  else []

/-- Counter-instrumented model of default_handler (failures.c:117-147) for
the recursion-guard dynamics: check the counter against the bound, enter
(increment), run the body during which nest further nested logging calls of
the same family may be triggered (each sees the incremented counter), and
exit (decrement). Returns the int result, the bytes handed to the writer by
this call and all nested ones (in nesting order), and the largest value the
family's counter took during the whole invocation. -/
def default_handler_nested (cfg : FailCfg) (pfx fmt : List Char) (args : List (List Char)) :
    Nat → Nat → Int × List Char × Nat
  | c, 0 =>
    if 2 ≤ c then (-1, [], c)
    else
      let msg := default_handler_msg cfg pfx fmt args
      let r : Int := match (log_fd_write_run cfg.fd_script msg 0).1 with
        | some (v, _) => v
        | none => -1
      (if r < 0 ∧ cfg.failure_ignore_errors = true then 0 else r, msg, c + 1)
  | c, n + 1 =>
    if 2 ≤ c then (-1, [], c)
    else
      let inner := default_handler_nested cfg pfx fmt args (c + 1) n
      let msg := default_handler_msg cfg pfx fmt args
      let r : Int := match (log_fd_write_run cfg.fd_script msg 0).1 with
        | some (v, _) => v
        | none => -1
      (if r < 0 ∧ cfg.failure_ignore_errors = true then 0 else r,
        inner.2.1 ++ msg, max (c + 1) inner.2.2)

/-- Counter-instrumented model of syslog_handler (failures.c:286-306), with
the same shape as default_handler_nested; the output component collects the
messages handed to the syslog sink. -/
def syslog_handler_nested (cfg : FailCfg) (t : LogType) (fmt : List Char)
    (args : List (List Char)) : Nat → Nat → Int × List (List Char) × Nat
  | c, 0 =>
    if 2 ≤ c then (-1, [], c)
    else (0, [syslog_msg cfg t fmt args], c + 1)
  | c, n + 1 =>
    if 2 ≤ c then (-1, [], c)
    else
      let inner := syslog_handler_nested cfg t fmt args (c + 1) n
      (0, inner.2.1 ++ [syslog_msg cfg t fmt args], max (c + 1) inner.2.2)

/-- Counter-instrumented model of internal_handler (failures.c:401-430),
with the same shape as default_handler_nested. -/
def internal_handler_nested (cfg : FailCfg) (tc : Char) (fmt : List Char)
    (args : List (List Char)) : Nat → Nat → Int × List Char × Nat
  | c, 0 =>
    if 2 ≤ c then (-1, [], c)
    else
      let r : Int := if cfg.write_full_ok then 0 else -1
      (if r < 0 ∧ cfg.failure_ignore_errors = true then 0 else r,
        internal_msg cfg tc fmt args, c + 1)
  | c, n + 1 =>
    if 2 ≤ c then (-1, [], c)
    else
      let inner := internal_handler_nested cfg tc fmt args (c + 1) n
      let r : Int := if cfg.write_full_ok then 0 else -1
      (if r < 0 ∧ cfg.failure_ignore_errors = true then 0 else r,
        inner.2.1 ++ internal_msg cfg tc fmt args, max (c + 1) inner.2.2)

/-- A benign concrete configuration: no prefix, no timestamp, write errors
not ignored, a script that delivers the nine bytes of the message
"Fatal: x" plus newline in one write, write_full succeeding. -/
def cfgOk : FailCfg :=
  { logPfx := none
    log_stamp_format := none
    stamp_out := []
    failure_ignore_errors := false
    errno_text := []
    fd_script := [WriteRes.wrote 9]
    write_full_ok := true }

/-- A concrete configuration whose destination write fails (a non-EINTR,
non-EAGAIN error) with write errors not ignored. -/
def cfgFail : FailCfg :=
  { cfgOk with fd_script := [WriteRes.werr Errno.eother], write_full_ok := false }

/-- A concrete configuration whose destination write fails while write
errors are configured to be ignored. -/
def cfgFailIgnore : FailCfg :=
  { cfgFail with failure_ignore_errors := true }

theorem applyFormat_lits (e : List Char) :
    ∀ (l : List Char) (ts : List FTok) (args : List (List Char)),
      applyFormat e (l.map FTok.lit ++ ts) args
        = (l ++ (applyFormat e ts args).1, (applyFormat e ts args).2) := by
  intro l
  induction l with
  | nil => intro ts args; simp
  | cons c l ih => intro ts args; simp [applyFormat, ih]

theorem applyFormat_honored (e : List Char) :
    ∀ (ts : List FTok) (args : List (List Char)),
      (applyFormat e ts args).2 = hasNConv ts := by
  intro ts
  induction ts with
  | nil => intro args; simp [applyFormat, hasNConv]
  | cons t ts ih =>
    intro args
    cases t with
    | lit c => simp [applyFormat, hasNConv, ih args]
    | conv c =>
      rcases eq_or_ne c '%' with rfl | h1
      · simp [applyFormat, hasNConv, ih args]
      rcases eq_or_ne c 'm' with rfl | h2
      · simp [applyFormat, hasNConv, ih args, h1]
      rcases eq_or_ne c 'n' with rfl | h3
      · simp [applyFormat, hasNConv, h1, h2]
      cases args with
      | nil => simp [applyFormat, hasNConv, h1, h2, h3, ih]
      | cons a rest => simp [applyFormat, hasNConv, h1, h2, h3, ih]

theorem applyFormat_fix_honored (e : List Char) :
    ∀ (ts : List FTok) (args : List (List Char)),
      (applyFormat e (printf_format_fix e ts) args).2 = false := by
  intro ts
  induction ts with
  | nil => intro args; simp [printf_format_fix, applyFormat]
  | cons t ts ih =>
    intro args
    rcases eq_or_ne t (FTok.conv 'n') with rfl | hn
    · simp [printf_format_fix, ih]
    rcases eq_or_ne t (FTok.conv 'm') with rfl | hm
    · simp [printf_format_fix, hn, applyFormat_lits, ih]
    simp only [printf_format_fix, if_neg hn, if_neg hm]
    cases t with
    | lit c => simp [applyFormat, ih]
    | conv c =>
      rcases eq_or_ne c '%' with rfl | h1
      · simp [applyFormat, ih]
      rcases eq_or_ne c 'm' with rfl | h2
      · exact absurd rfl hm
      rcases eq_or_ne c 'n' with rfl | h3
      · exact absurd rfl hn
      cases args with
      | nil => simp [applyFormat, h1, h2, h3, ih]
      | cons a rest => simp [applyFormat, h1, h2, h3, ih]

/-- Claim C3, counterexample: a write-count conversion embedded in the
caller's format string reaches argument application unneutralized in the
framed internal backend and in the syslog backend, so the claim that all
three backends never honor it is false. -/
theorem percent_n_honored_by_non_fd_backends :
    (internal_handler cfgOk 0 'E' ('%' :: 'n' :: []) []).honoredN = true
    ∧ (syslog_handler cfgOk 0 3 LogType.error ('%' :: 'n' :: []) [] true).honoredN = true := by
  constructor <;> decide

/-- Claim C3, amended: only the fd backend neutralizes the write-count
conversion specifier. default_handler applies printf_format_fix to the
format string before the arguments, so a write-count store never happens on
that path; syslog_handler and internal_handler apply the caller's format
string raw, so an embedded write-count conversion is honored there whenever
the recursion guard admits the call. -/
theorem format_fix_applied_only_by_fd_backend :
    ∀ (cfg : FailCfg) (r lvl : Nat) (t : LogType) (tc : Char) (pfx fmt : List Char)
      (args : List (List Char)) (d : Bool),
      (∀ h, default_handler cfg r pfx fmt args = some h → h.honoredN = false)
      ∧ (r < 2 → (internal_handler cfg r tc fmt args).honoredN = hasNConv (parseFormat fmt))
      ∧ (r < 2 → (syslog_handler cfg r lvl t fmt args d).honoredN = hasNConv (parseFormat fmt)) := by
  intro cfg r lvl t tc pfx fmt args d
  refine ⟨?_, ?_, ?_⟩
  · intro h hh
    by_cases h2 : 2 ≤ r
    · simp only [default_handler, if_pos h2, Option.some.injEq] at hh
      rw [← hh]
    · rcases hrun : (log_fd_write_run cfg.fd_script (default_handler_msg cfg pfx fmt args) 0).1
        with _ | ⟨rr, ee⟩
      · simp [default_handler, h2, hrun] at hh
      · simp only [default_handler, if_neg h2, hrun, Option.some.injEq] at hh
        rw [← hh]
        simpa [default_handler_body] using
          applyFormat_fix_honored cfg.errno_text (parseFormat fmt) args
  · intro hr
    have h2 : ¬ (2 ≤ r) := by omega
    simp [internal_handler, h2, applyFormat_honored]
  · intro hr
    have h2 : ¬ (2 ≤ r) := by omega
    simp [syslog_handler, h2, applyFormat_honored]

theorem format_fix_applied_only_by_fd_backend_witness :
    (internal_handler cfgOk 1 'E' ('%' :: 'n' :: []) []).honoredN
      = hasNConv (parseFormat ('%' :: 'n' :: [])) :=
  (format_fix_applied_only_by_fd_backend cfgOk 1 3 LogType.error 'E' [] ('%' :: 'n' :: []) []
    true).2.1 (by decide)

/-- Claim C5: the Blocking Writer tolerates interrupted writes by retrying:
three consecutive EINTR results make the call fall through to the failure
path (the per-call count reaches 3), while two consecutive EINTR results
followed by a successful write of the whole buffer succeed and deliver
every byte. -/
theorem log_fd_write_eintr_tolerance :
    ∀ (data : List Char),
      (log_fd_write_run [WriteRes.werr Errno.eintr, WriteRes.werr Errno.eintr,
          WriteRes.werr Errno.eintr] data 0).1 = some (-1, some Errno.eintr)
      ∧ log_fd_write_run [WriteRes.werr Errno.eintr, WriteRes.werr Errno.eintr,
          WriteRes.wrote data.length] data 0 = (some (0, none), data) := by
  intro data
  constructor
  · rfl
  · simp [log_fd_write_run]

/-- Claim C6: a zero-byte write result with no error makes the Blocking
Writer fail immediately, with errno classified as out of disk space; the
rest of the script is never consulted. -/
theorem zero_write_reports_enospc :
    ∀ (s : List WriteRes) (rem : List Char) (ec : Nat), rem ≠ [] →
      log_fd_write_run (WriteRes.wrote 0 :: s) rem ec
        = (some (-1, some Errno.enospc), []) := by
  intro s rem ec h
  have hlen : ¬ ((0 : Nat) = rem.length) := fun hh => h (List.length_eq_zero.mp hh.symm)
  simp [log_fd_write_run, hlen]

theorem zero_write_reports_enospc_witness :
    log_fd_write_run (WriteRes.wrote 0 :: [WriteRes.wrote 1]) ('a' :: []) 0
      = (some (-1, some Errno.enospc), []) :=
  zero_write_reports_enospc [WriteRes.wrote 1] ('a' :: []) 0 (by decide)

/-- Claim C9: attaching a peer address writes exactly the out-of-band frame
control-byte 1, "Oip=", address text, newline when the framed backend's
error handler is the installed error handler, and writes nothing under any
other error handler. -/
theorem set_failure_ip_frame :
    ∀ (eh : HandlerKind) (ipText : List Char),
      (eh = HandlerKind.internalH →
        i_set_failure_ip eh ipText = Char.ofNat 1 :: "Oip=".data ++ ipText ++ ['\n'])
      ∧ (eh ≠ HandlerKind.internalH → i_set_failure_ip eh ipText = []) := by
  intro eh ip
  constructor
  · intro h; simp [i_set_failure_ip, h]
  · intro h; simp [i_set_failure_ip, h]

theorem set_failure_ip_frame_witness :
    i_set_failure_ip HandlerKind.internalH "203.0.113.5".data
      = Char.ofNat 1 :: "Oip=".data ++ "203.0.113.5".data ++ ['\n']
    ∧ i_set_failure_ip HandlerKind.defaultH "203.0.113.5".data = [] :=
  ⟨(set_failure_ip_frame HandlerKind.internalH "203.0.113.5".data).1 rfl,
   (set_failure_ip_frame HandlerKind.defaultH "203.0.113.5".data).2 (by decide)⟩

theorem run_delivered_is_taken_in_order :
    ∀ (s : List WriteRes) (rem : List Char) (ec : Nat),
      ∃ rest, rem = (log_fd_write_run s rem ec).2 ++ rest := by
  intro s
  induction s with
  | nil => intro rem ec; exact ⟨rem, by simp [log_fd_write_run]⟩
  | cons w s ih =>
    intro rem ec
    cases w with
    | wrote k =>
      by_cases h1 : k = rem.length
      · exact ⟨[], by simp [log_fd_write_run, h1]⟩
      · by_cases h0 : k = 0
        · subst h0
          exact ⟨rem, by simp [log_fd_write_run, h1]⟩
        · by_cases h2 : k < rem.length
          · obtain ⟨r', hr'⟩ := ih (rem.drop k) ec
            refine ⟨r', ?_⟩
            simp only [log_fd_write_run, if_neg h1, if_neg h0, if_pos h2]
            rw [List.append_assoc, ← hr', List.take_append_drop]
          · exact ⟨rem, by simp [log_fd_write_run, h1, h0, h2]⟩
    | werr e =>
      cases e with
      | eintr =>
        by_cases hc : ec + 1 < 3
        · simpa [log_fd_write_run, hc] using ih rem (ec + 1)
        · exact ⟨rem, by simp [log_fd_write_run, hc]⟩
      | eagain => simpa [log_fd_write_run] using ih rem ec
      | enospc => exact ⟨rem, by simp [log_fd_write_run]⟩
      | eother => exact ⟨rem, by simp [log_fd_write_run]⟩

theorem run_success_delivers_all :
    ∀ (s : List WriteRes) (rem : List Char) (ec : Nat),
      (log_fd_write_run s rem ec).1 = some (0, none) →
      (log_fd_write_run s rem ec).2 = rem := by
  intro s
  induction s with
  | nil => intro rem ec h; simp [log_fd_write_run] at h
  | cons w s ih =>
    intro rem ec h
    cases w with
    | wrote k =>
      by_cases h1 : k = rem.length
      · simp [log_fd_write_run, h1]
      · by_cases h0 : k = 0
        · subst h0
          simp [log_fd_write_run, h1] at h
        · by_cases h2 : k < rem.length
          · simp only [log_fd_write_run, if_neg h1, if_neg h0, if_pos h2] at h ⊢
            rw [ih _ _ h]
            exact List.take_append_drop k rem
          · simp [log_fd_write_run, h1, h0, h2] at h
    | werr e =>
      cases e with
      | eintr =>
        by_cases hc : ec + 1 < 3
        · simp only [log_fd_write_run, if_pos hc] at h ⊢
          · exact ih _ _ h
        · simp [log_fd_write_run, hc] at h
      | eagain =>
        simp only [log_fd_write_run] at h ⊢
        exact ih _ _ h
      | enospc => simp [log_fd_write_run] at h
      | eother => simp [log_fd_write_run] at h

theorem run_result_shape :
    ∀ (s : List WriteRes) (rem : List Char) (ec : Nat) (r : Int) (e : Option Errno),
      (log_fd_write_run s rem ec).1 = some (r, e) →
      (r = 0 ∧ e = none) ∨ (r = -1 ∧ e ≠ none) := by
  intro s
  induction s with
  | nil => intro rem ec r e h; simp [log_fd_write_run] at h
  | cons w s ih =>
    intro rem ec r e h
    cases w with
    | wrote k =>
      by_cases h1 : k = rem.length
      · simp [log_fd_write_run, h1] at h
        exact Or.inl ⟨h.1.symm, h.2.symm⟩
      · by_cases h0 : k = 0
        · subst h0
          simp [log_fd_write_run, h1] at h
          obtain ⟨hr, he⟩ := h
          subst he
          exact Or.inr ⟨hr.symm, by simp⟩
        · by_cases h2 : k < rem.length
          · simp only [log_fd_write_run, if_neg h1, if_neg h0, if_pos h2] at h
            exact ih _ _ _ _ h
          · simp [log_fd_write_run, h1, h0, h2] at h
    | werr e' =>
      cases e' with
      | eintr =>
        by_cases hc : ec + 1 < 3
        · simp only [log_fd_write_run, if_pos hc] at h
          exact ih _ _ _ _ h
        · simp [log_fd_write_run, hc] at h
          obtain ⟨hr, he⟩ := h
          subst he
          exact Or.inr ⟨hr.symm, by simp⟩
      | eagain =>
        simp only [log_fd_write_run] at h
        exact ih _ _ _ _ h
      | enospc =>
        simp [log_fd_write_run] at h
        obtain ⟨hr, he⟩ := h
        subst he
        exact Or.inr ⟨hr.symm, by simp⟩
      | eother =>
        simp [log_fd_write_run] at h
        obtain ⟨hr, he⟩ := h
        subst he
        exact Or.inr ⟨hr.symm, by simp⟩

theorem run_short_write_step :
    ∀ (k : Nat) (s : List WriteRes) (rem : List Char) (ec : Nat), 0 < k → k < rem.length →
      log_fd_write_run (WriteRes.wrote k :: s) rem ec
        = ((log_fd_write_run s (rem.drop k) ec).1,
           rem.take k ++ (log_fd_write_run s (rem.drop k) ec).2) := by
  intro k s rem ec hk hlt
  have h1 : ¬ (k = rem.length) := by omega
  have h0 : ¬ (k = 0) := by omega
  simp [log_fd_write_run, h1, h0, hlt]

/-- Claim C4: the Blocking Writer returns success only when it has consumed
exactly the requested buffer in order: the delivered bytes are always an
initial segment of the buffer taken in order (no byte duplicated, dropped
or reordered), success delivers the whole buffer, every determined outcome
is either success or a failure carrying the underlying errno, and a short
write of k bytes advances the buffer by exactly k and retries on the rest
of the script immediately. -/
theorem log_fd_write_exact_delivery :
    ∀ (s : List WriteRes) (rem : List Char) (ec : Nat),
      (∃ rest, rem = (log_fd_write_run s rem ec).2 ++ rest)
      ∧ ((log_fd_write_run s rem ec).1 = some (0, none) →
          (log_fd_write_run s rem ec).2 = rem)
      ∧ (∀ (r : Int) (e : Option Errno), (log_fd_write_run s rem ec).1 = some (r, e) →
          (r = 0 ∧ e = none) ∨ (r = -1 ∧ e ≠ none))
      ∧ (∀ k, 0 < k → k < rem.length →
          log_fd_write_run (WriteRes.wrote k :: s) rem ec
            = ((log_fd_write_run s (rem.drop k) ec).1,
               rem.take k ++ (log_fd_write_run s (rem.drop k) ec).2)) :=
  fun s rem ec =>
    ⟨run_delivered_is_taken_in_order s rem ec, run_success_delivers_all s rem ec,
     run_result_shape s rem ec, fun k hk hlt => run_short_write_step k s rem ec hk hlt⟩

theorem log_fd_write_exact_delivery_witness :
    (log_fd_write_run [WriteRes.wrote 1, WriteRes.wrote 2] ('a' :: 'b' :: 'c' :: []) 0).2
      = 'a' :: 'b' :: 'c' :: [] :=
  (log_fd_write_exact_delivery [WriteRes.wrote 1, WriteRes.wrote 2]
    ('a' :: 'b' :: 'c' :: []) 0).2.1 (by decide)

theorem i_error_exit_status (cfg : FailCfg) (eh : HandlerKind) (r : Nat)
    (fmt : List Char) (args : List (List Char)) (d : Bool) :
    ∀ s, i_error cfg eh r fmt args d = some (ErrAction.exited s) →
      s = FATAL_LOGWRITE ∨ s = FATAL_LOGERROR := by
  intro s h
  cases eh with
  | defaultH =>
    simp only [i_error, default_error_handler] at h
    rcases hd : default_handler cfg r (failure_log_type_labels LogType.error) fmt args
      with _ | ho
    · rw [hd] at h; exact absurd h (by simp)
    · rw [hd] at h
      simp only [Option.map_some', Option.some.injEq] at h
      by_cases hret : ho.ret < 0
      · rw [if_pos hret] at h
        simp at h
        exact Or.inl h.symm
      · rw [if_neg hret] at h
        exact absurd h (by simp)
  | syslogH =>
    simp only [i_error, i_syslog_error_handler] at h
    by_cases hret : (syslog_handler cfg r (syslog_severity LogType.error) LogType.error
        fmt args d).ret < 0
    · rw [if_pos hret] at h
      simp at h
      exact Or.inr h.symm
    · rw [if_neg hret] at h
      exact absurd h (by simp)
  | internalH =>
    simp only [i_error, i_internal_error_handler] at h
    by_cases hret : (internal_handler cfg r (log_type_internal_chars LogType.error)
        fmt args).ret < 0
    · rw [if_pos hret] at h
      simp at h
      exact Or.inr h.symm
    · rw [if_neg hret] at h
      exact absurd h (by simp)

theorem default_fatal_finish_panic_no_backtrace (cfg : FailCfg) (eh : HandlerKind)
    (rErr : Nat) (d : Bool) (bt : List Char) (status : Int) :
    default_fatal_finish cfg eh rErr false d bt LogType.panic status
      = some TermAction.abort := by
  simp [default_fatal_finish]

theorem default_fatal_finish_panic_returned (cfg : FailCfg) (eh : HandlerKind)
    (rErr : Nat) (bo d : Bool) (bt : List Char) (status : Int)
    (he : i_error cfg eh rErr "Raw backtrace: %s".data [bt] d = some ErrAction.returned) :
    default_fatal_finish cfg eh rErr bo d bt LogType.panic status
      = some TermAction.abort := by
  cases bo with
  | false => simp [default_fatal_finish]
  | true => simp [default_fatal_finish, he]

theorem default_fatal_finish_panic_shape (cfg : FailCfg) (eh : HandlerKind) (rErr : Nat)
    (bo d : Bool) (bt : List Char) (status : Int) :
    ∀ a, default_fatal_finish cfg eh rErr bo d bt LogType.panic status = some a →
      a = TermAction.abort ∨ a = TermAction.exitWith FATAL_LOGWRITE
        ∨ a = TermAction.exitWith FATAL_LOGERROR := by
  intro a h
  cases bo with
  | false =>
    rw [default_fatal_finish_panic_no_backtrace cfg eh rErr d bt status] at h
    simp only [Option.some.injEq] at h
    exact Or.inl h.symm
  | true =>
    rcases he : i_error cfg eh rErr "Raw backtrace: %s".data [bt] d with _ | ea
    · simp [default_fatal_finish, he] at h
    · cases ea with
      | returned =>
        rw [default_fatal_finish_panic_returned cfg eh rErr true d bt status he] at h
        simp only [Option.some.injEq] at h
        exact Or.inl h.symm
      | exited s =>
        simp [default_fatal_finish, he] at h
        rcases i_error_exit_status cfg eh rErr "Raw backtrace: %s".data [bt] d s he
          with h1 | h1
        · subst h1; exact Or.inr (Or.inl h.symm)
        · subst h1; exact Or.inr (Or.inr h.symm)

/-- Claim C1, counterexample: with the fd backend installed and a failing
destination, i_panic reaches default_fatal_finish, whose captured-backtrace
emission through i_error also fails to write, so default_error_handler
terminates the process through failure_exit with FATAL_LOGWRITE
(failures.c:154-157 and 181-182) - a managed exit with a status code, not
abort. -/
theorem i_panic_exits_normally_on_failing_backtrace_write :
    i_panic cfgFail HandlerKind.defaultH 0 0 0 true false [] ('x' :: []) []
      = some (TermAction.exitWith FATAL_LOGWRITE)
    ∧ TermAction.exitWith FATAL_LOGWRITE ≠ TermAction.abort := by
  constructor <;> decide

/-- Claim C1, amended: i_panic never returns to its caller, and terminates
via abort() in every case except one: when a backtrace was captured and its
emission through the installed error path itself terminates the process
first, the process exits through failure_exit with that path's
write-failure status (FATAL_LOGWRITE for the fd backend, FATAL_LOGERROR for
the syslog and framed backends). Every terminating execution is abort or
one of those two exits; it is abort whenever no backtrace is captured,
whenever the backtrace emission returns, and always on the syslog backend
below the recursion bound. -/
theorem i_panic_aborts_unless_backtrace_emission_exits :
    ∀ (cfg : FailCfg) (hk : HandlerKind) (rFd rSys rInt : Nat) (bo d : Bool)
      (bt fmt : List Char) (args : List (List Char)),
      (∀ a, i_panic cfg hk rFd rSys rInt bo d bt fmt args = some a →
        a = TermAction.abort ∨ a = TermAction.exitWith FATAL_LOGWRITE
          ∨ a = TermAction.exitWith FATAL_LOGERROR)
      ∧ (bo = false → ∀ a, i_panic cfg hk rFd rSys rInt bo d bt fmt args = some a →
          a = TermAction.abort)
      ∧ (i_error cfg HandlerKind.defaultH rFd "Raw backtrace: %s".data [bt] d
            = some ErrAction.returned →
          ∀ a, i_panic cfg HandlerKind.defaultH rFd rSys rInt bo d bt fmt args = some a →
            a = TermAction.abort)
      ∧ (rSys < 2 →
          i_panic cfg HandlerKind.syslogH rFd rSys rInt bo d bt fmt args
            = some TermAction.abort)
      ∧ (i_error cfg HandlerKind.internalH rInt "Raw backtrace: %s".data [bt] d
            = some ErrAction.returned →
          i_panic cfg HandlerKind.internalH rFd rSys rInt bo d bt fmt args
            = some TermAction.abort) := by
  intro cfg hk rFd rSys rInt bo d bt fmt args
  refine ⟨?_, ?_, ?_, ?_, ?_⟩
  · intro a h
    cases hk with
    | defaultH =>
      rcases hd : default_handler cfg rFd (failure_log_type_labels LogType.panic) fmt args
        with _ | ho
      · simp [i_panic, default_fatal_handler, hd] at h
      · simp only [i_panic, default_fatal_handler, hd] at h
        exact default_fatal_finish_panic_shape cfg HandlerKind.defaultH rFd bo d bt _ a h
    | syslogH =>
      simp only [i_panic, i_syslog_fatal_handler] at h
      exact default_fatal_finish_panic_shape cfg HandlerKind.syslogH rSys bo d bt _ a h
    | internalH =>
      simp only [i_panic, i_internal_fatal_handler] at h
      exact default_fatal_finish_panic_shape cfg HandlerKind.internalH rInt bo d bt _ a h
  · intro hbo a h
    subst hbo
    cases hk with
    | defaultH =>
      rcases hd : default_handler cfg rFd (failure_log_type_labels LogType.panic) fmt args
        with _ | ho
      · simp [i_panic, default_fatal_handler, hd] at h
      · simp only [i_panic, default_fatal_handler, hd] at h
        rw [default_fatal_finish_panic_no_backtrace cfg HandlerKind.defaultH rFd d bt _] at h
        simp only [Option.some.injEq] at h
        exact h.symm
    | syslogH =>
      simp only [i_panic, i_syslog_fatal_handler] at h
      rw [default_fatal_finish_panic_no_backtrace cfg HandlerKind.syslogH rSys d bt _] at h
      simp only [Option.some.injEq] at h
      exact h.symm
    | internalH =>
      simp only [i_panic, i_internal_fatal_handler] at h
      rw [default_fatal_finish_panic_no_backtrace cfg HandlerKind.internalH rInt d bt _] at h
      simp only [Option.some.injEq] at h
      exact h.symm
  · intro he a h
    rcases hd : default_handler cfg rFd (failure_log_type_labels LogType.panic) fmt args
      with _ | ho
    · simp [i_panic, default_fatal_handler, hd] at h
    · simp only [i_panic, default_fatal_handler, hd] at h
      rw [default_fatal_finish_panic_returned cfg HandlerKind.defaultH rFd bo d bt _ he] at h
      simp only [Option.some.injEq] at h
      exact h.symm
  · intro hr
    have h2 : ¬ (2 ≤ rSys) := by omega
    have he : i_error cfg HandlerKind.syslogH rSys "Raw backtrace: %s".data [bt] d
        = some ErrAction.returned := by
      simp [i_error, i_syslog_error_handler, syslog_handler, h2]
    simp only [i_panic, i_syslog_fatal_handler]
    exact default_fatal_finish_panic_returned cfg HandlerKind.syslogH rSys bo d bt _ he
  · intro he
    simp only [i_panic, i_internal_fatal_handler]
    exact default_fatal_finish_panic_returned cfg HandlerKind.internalH rInt bo d bt _ he

theorem i_panic_aborts_unless_backtrace_emission_exits_witness :
    i_panic cfgOk HandlerKind.syslogH 0 0 0 true false [] ('x' :: []) []
      = some TermAction.abort :=
  (i_panic_aborts_unless_backtrace_emission_exits cfgOk HandlerKind.syslogH 0 0 0 true
    false [] ('x' :: []) []).2.2.2.1 (by decide)

theorem default_fatal_finish_fatal_no_oom (cfg : FailCfg) (eh : HandlerKind) (rErr : Nat)
    (bo d : Bool) (bt : List Char) (status : Int) (hs : status ≠ FATAL_OUTOFMEM) :
    default_fatal_finish cfg eh rErr bo d bt LogType.fatal status
      = some (TermAction.exitWith status) := by
  have hb : ¬ ((LogType.fatal = LogType.panic ∨ status = FATAL_OUTOFMEM) ∧ bo = true) := by
    rintro ⟨hor, -⟩
    rcases hor with hp | ho
    · exact absurd hp (by decide)
    · exact hs ho
  unfold default_fatal_finish
  rw [if_neg hb]
  simp

theorem default_fatal_finish_fatal_oom_exited (cfg : FailCfg) (eh : HandlerKind)
    (rErr : Nat) (d : Bool) (bt : List Char) (s : Int)
    (he : i_error cfg eh rErr "Raw backtrace: %s".data [bt] d = some (ErrAction.exited s)) :
    default_fatal_finish cfg eh rErr true d bt LogType.fatal FATAL_OUTOFMEM
      = some (TermAction.exitWith s) := by
  unfold default_fatal_finish
  rw [if_pos ⟨Or.inr rfl, rfl⟩, he]

theorem default_fatal_finish_fatal_oom_returned (cfg : FailCfg) (eh : HandlerKind)
    (rErr : Nat) (bo d : Bool) (bt : List Char)
    (he : i_error cfg eh rErr "Raw backtrace: %s".data [bt] d = some ErrAction.returned) :
    default_fatal_finish cfg eh rErr bo d bt LogType.fatal FATAL_OUTOFMEM
      = some (TermAction.exitWith FATAL_OUTOFMEM) := by
  cases bo with
  | false =>
    unfold default_fatal_finish
    rw [if_neg (by rintro ⟨-, hh⟩; exact Bool.false_ne_true hh)]
    simp
  | true =>
    unfold default_fatal_finish
    rw [if_pos ⟨Or.inr rfl, rfl⟩, he]
    simp

/-- Claim C2, counterexample: when write errors are configured to be
ignored, a failed destination write during fatal handling is downgraded to
success inside default_handler, so the status handed to failure_exit stays
at the default sentinel instead of the write-failure code, although the
underlying write did fail. -/
theorem fatal_default_not_upgraded_when_errors_ignored :
    default_fatal_handler cfgFailIgnore 0 HandlerKind.defaultH 0 false false []
        LogType.fatal FATAL_DEFAULT ('x' :: []) []
      = some (TermAction.exitWith FATAL_DEFAULT)
    ∧ (log_fd_write_run cfgFailIgnore.fd_script
        (default_handler_msg cfgFailIgnore (failure_log_type_labels LogType.fatal)
          ('x' :: []) []) 0).1
      = some (-1, some Errno.eother)
    ∧ FATAL_DEFAULT ≠ FATAL_LOGWRITE := by
  refine ⟨?_, ?_, ?_⟩ <;> decide

/-- Claim C2, amended: for a fatal-level emission whose destination write
fails, provided write errors are not configured to be ignored and the
recursion guard admits the call, a default-sentinel status is upgraded to
the backend's write-failure code (FATAL_LOGWRITE for the fd backend,
FATAL_LOGERROR for the framed backend), and any other requested status
except the out-of-memory sentinel is handed to failure_exit unchanged; a
status that is neither the default nor the out-of-memory sentinel is never
downgraded on any backend under any configuration. A requested
FATAL_OUTOFMEM additionally triggers the best-effort backtrace emission of
default_fatal_finish through the installed error path: if that emission
itself terminates the process, the exit status is that path's write-failure
code instead; if it returns, FATAL_OUTOFMEM is handed on unchanged. With
the ignore-write-errors flag set, a failed write is treated as success and
the default status is kept. -/
theorem fatal_write_failure_escalates_default_status :
    ∀ (cfg : FailCfg) (r : Nat) (eh : HandlerKind) (rErr : Nat) (bo d : Bool)
      (bt : List Char) (status : Int) (fmt : List Char) (args : List (List Char)),
      (∀ (rc : Int) (e : Option Errno),
        cfg.failure_ignore_errors = false → r < 2 → status ≠ FATAL_OUTOFMEM →
        (log_fd_write_run cfg.fd_script
          (default_handler_msg cfg (failure_log_type_labels LogType.fatal) fmt args) 0).1
          = some (rc, e) → rc < 0 →
        default_fatal_handler cfg r eh rErr bo d bt LogType.fatal status fmt args
          = some (TermAction.exitWith
              (if status = FATAL_DEFAULT then FATAL_LOGWRITE else status)))
      ∧ (cfg.failure_ignore_errors = false → r < 2 → cfg.write_full_ok = false →
          status ≠ FATAL_OUTOFMEM →
          i_internal_fatal_handler cfg r eh rErr bo d bt LogType.fatal status fmt args
            = some (TermAction.exitWith
                (if status = FATAL_DEFAULT then FATAL_LOGERROR else status)))
      ∧ (status ≠ FATAL_DEFAULT → status ≠ FATAL_OUTOFMEM →
          (∀ a, default_fatal_handler cfg r eh rErr bo d bt LogType.fatal status fmt args
              = some a → a = TermAction.exitWith status)
          ∧ i_internal_fatal_handler cfg r eh rErr bo d bt LogType.fatal status fmt args
            = some (TermAction.exitWith status)
          ∧ i_syslog_fatal_handler cfg r eh rErr bo d bt LogType.fatal status fmt args
            = some (TermAction.exitWith status))
      ∧ (∀ s, bo = true →
          i_error cfg eh rErr "Raw backtrace: %s".data [bt] d
            = some (ErrAction.exited s) →
          (∀ a, default_fatal_handler cfg r eh rErr bo d bt LogType.fatal FATAL_OUTOFMEM
              fmt args = some a → a = TermAction.exitWith s)
          ∧ i_internal_fatal_handler cfg r eh rErr bo d bt LogType.fatal FATAL_OUTOFMEM
              fmt args = some (TermAction.exitWith s)
          ∧ i_syslog_fatal_handler cfg r eh rErr bo d bt LogType.fatal FATAL_OUTOFMEM
              fmt args = some (TermAction.exitWith s))
      ∧ (i_error cfg eh rErr "Raw backtrace: %s".data [bt] d = some ErrAction.returned →
          (∀ a, default_fatal_handler cfg r eh rErr bo d bt LogType.fatal FATAL_OUTOFMEM
              fmt args = some a → a = TermAction.exitWith FATAL_OUTOFMEM)
          ∧ i_internal_fatal_handler cfg r eh rErr bo d bt LogType.fatal FATAL_OUTOFMEM
              fmt args = some (TermAction.exitWith FATAL_OUTOFMEM)
          ∧ i_syslog_fatal_handler cfg r eh rErr bo d bt LogType.fatal FATAL_OUTOFMEM
              fmt args = some (TermAction.exitWith FATAL_OUTOFMEM)) := by
  intro cfg r eh rErr bo d bt status fmt args
  have hoom_ne : ∀ (st up : Int), st ≠ FATAL_DEFAULT →
      (∀ ret : Int, (if ret < 0 ∧ st = FATAL_DEFAULT then up else st) = st) :=
    fun st up hst ret => if_neg fun hh => hst hh.2
  refine ⟨?_, ?_, ?_, ?_, ?_⟩
  · intro rc e hig hr hoom hrun hrc
    have h2 : ¬ (2 ≤ r) := by omega
    have hnotig : ¬ (rc < 0 ∧ cfg.failure_ignore_errors = true) := by
      rintro ⟨-, hh⟩; rw [hig] at hh; exact Bool.false_ne_true hh
    simp only [default_fatal_handler, default_handler, if_neg h2, hrun, if_neg hnotig]
    by_cases hs : status = FATAL_DEFAULT
    · subst hs
      rw [if_pos ⟨hrc, rfl⟩, if_pos rfl]
      exact default_fatal_finish_fatal_no_oom cfg eh rErr bo d bt FATAL_LOGWRITE (by decide)
    · rw [if_neg fun hh => hs hh.2, if_neg hs]
      exact default_fatal_finish_fatal_no_oom cfg eh rErr bo d bt status hoom
  · intro hig hr hwf hoom
    have h2 : ¬ (2 ≤ r) := by omega
    have hret : (internal_handler cfg r (log_type_internal_chars LogType.fatal)
        fmt args).ret = -1 := by
      simp [internal_handler, h2, hig, hwf]
    simp only [i_internal_fatal_handler, hret]
    by_cases hs : status = FATAL_DEFAULT
    · subst hs
      rw [if_pos ⟨by norm_num, rfl⟩, if_pos rfl]
      exact default_fatal_finish_fatal_no_oom cfg eh rErr bo d bt FATAL_LOGERROR (by decide)
    · rw [if_neg fun hh => hs hh.2, if_neg hs]
      exact default_fatal_finish_fatal_no_oom cfg eh rErr bo d bt status hoom
  · intro hs hoom
    refine ⟨?_, ?_, ?_⟩
    · intro a ha
      rcases hd : default_handler cfg r (failure_log_type_labels LogType.fatal) fmt args
        with _ | ho
      · simp [default_fatal_handler, hd] at ha
      · have hni : ¬ (ho.ret < 0 ∧ status = FATAL_DEFAULT) := fun hh => hs hh.2
        simp only [default_fatal_handler, hd] at ha
        rw [if_neg hni,
          default_fatal_finish_fatal_no_oom cfg eh rErr bo d bt status hoom] at ha
        simp only [Option.some.injEq] at ha
        exact ha.symm
    · simp only [i_internal_fatal_handler]
      rw [hoom_ne status FATAL_LOGERROR hs _]
      exact default_fatal_finish_fatal_no_oom cfg eh rErr bo d bt status hoom
    · simp only [i_syslog_fatal_handler]
      rw [hoom_ne status FATAL_LOGERROR hs _]
      exact default_fatal_finish_fatal_no_oom cfg eh rErr bo d bt status hoom
  · intro s hbo he
    subst hbo
    have hfin := default_fatal_finish_fatal_oom_exited cfg eh rErr d bt s he
    refine ⟨?_, ?_, ?_⟩
    · intro a ha
      rcases hd : default_handler cfg r (failure_log_type_labels LogType.fatal) fmt args
        with _ | ho
      · simp [default_fatal_handler, hd] at ha
      · simp only [default_fatal_handler, hd] at ha
        rw [hoom_ne FATAL_OUTOFMEM FATAL_LOGWRITE (by decide) ho.ret, hfin] at ha
        simp only [Option.some.injEq] at ha
        exact ha.symm
    · simp only [i_internal_fatal_handler]
      rw [hoom_ne FATAL_OUTOFMEM FATAL_LOGERROR (by decide) _, hfin]
    · simp only [i_syslog_fatal_handler]
      rw [hoom_ne FATAL_OUTOFMEM FATAL_LOGERROR (by decide) _, hfin]
  · intro he
    have hfin := default_fatal_finish_fatal_oom_returned cfg eh rErr bo d bt he
    refine ⟨?_, ?_, ?_⟩
    · intro a ha
      rcases hd : default_handler cfg r (failure_log_type_labels LogType.fatal) fmt args
        with _ | ho
      · simp [default_fatal_handler, hd] at ha
      · simp only [default_fatal_handler, hd] at ha
        rw [hoom_ne FATAL_OUTOFMEM FATAL_LOGWRITE (by decide) ho.ret, hfin] at ha
        simp only [Option.some.injEq] at ha
        exact ha.symm
    · simp only [i_internal_fatal_handler]
      rw [hoom_ne FATAL_OUTOFMEM FATAL_LOGERROR (by decide) _, hfin]
    · simp only [i_syslog_fatal_handler]
      rw [hoom_ne FATAL_OUTOFMEM FATAL_LOGERROR (by decide) _, hfin]

theorem fatal_write_failure_escalates_default_status_witness :
    default_fatal_handler cfgFail 0 HandlerKind.defaultH 0 false false []
        LogType.fatal FATAL_DEFAULT ('x' :: []) []
      = some (TermAction.exitWith FATAL_LOGWRITE) := by
  have h := (fatal_write_failure_escalates_default_status cfgFail 0 HandlerKind.defaultH 0
    false false [] FATAL_DEFAULT ('x' :: []) []).1 (-1) (some Errno.eother) rfl
    (by decide) (by decide) (by decide) (by decide)
  exact h.trans (by decide)

/-- Claim C8: every message the framed internal backend emits is exactly
one control byte of value 1, then the single level-code byte from the fixed
table (I, W, E, F, P), then the user message with arguments applied, then
one trailing newline byte; the configured log prefix and timestamp never
enter the frame. -/
theorem internal_frame_format :
    ∀ (cfg : FailCfg) (t : LogType) (fmt : List Char) (args : List (List Char)) (r : Nat),
      (r < 2 →
        (internal_handler cfg r (log_type_internal_chars t) fmt args).sent
          = Char.ofNat 1 :: log_type_internal_chars t
              :: (applyFormat cfg.errno_text (parseFormat fmt) args).1 ++ ['\n'])
      ∧ (∀ p sf so,
          (internal_handler
              { cfg with logPfx := p, log_stamp_format := sf, stamp_out := so }
              r (log_type_internal_chars t) fmt args).sent
            = (internal_handler cfg r (log_type_internal_chars t) fmt args).sent)
      ∧ log_type_internal_chars LogType.info = 'I'
      ∧ log_type_internal_chars LogType.warning = 'W'
      ∧ log_type_internal_chars LogType.error = 'E'
      ∧ log_type_internal_chars LogType.fatal = 'F'
      ∧ log_type_internal_chars LogType.panic = 'P' := by
  intro cfg t fmt args r
  refine ⟨?_, fun p sf so => rfl, rfl, rfl, rfl, rfl, rfl⟩
  intro hr
  have h2 : ¬ (2 ≤ r) := by omega
  simp [internal_handler, internal_msg, h2]

theorem internal_frame_format_witness :
    (internal_handler cfgOk 0 (log_type_internal_chars LogType.error)
        ('h' :: 'i' :: []) []).sent
      = Char.ofNat 1 :: 'E' :: 'h' :: 'i' :: '\n' :: [] := by
  have h := (internal_frame_format cfgOk LogType.error ('h' :: 'i' :: []) [] 0).1 (by decide)
  exact h.trans (by decide)

/-- Claim C10: the syslog handler's result never depends on whether syslog
delivery succeeds (syslog(3) returns void): it fails exactly when the
recursion counter is at the bound on entry and succeeds otherwise, so below
the bound the syslog error/info path never terminates the process, the
syslog fatal path hands the requested status on without escalation, and the
ignore-write-errors flag changes nothing on the syslog backend. -/
theorem syslog_result_independent_of_delivery :
    ∀ (cfg : FailCfg) (r lvl : Nat) (t : LogType) (status : Int) (fmt : List Char)
      (args : List (List Char)) (d1 d2 bo : Bool) (bt : List Char),
      syslog_handler cfg r lvl t fmt args d1 = syslog_handler cfg r lvl t fmt args d2
      ∧ ((syslog_handler cfg r lvl t fmt args d1).ret = -1 ↔ 2 ≤ r)
      ∧ (r < 2 → i_syslog_error_handler cfg r t fmt args d1 = ErrAction.returned)
      ∧ (r < 2 → i_syslog_fatal_handler cfg r HandlerKind.syslogH r bo d1 bt
          LogType.fatal status fmt args = some (TermAction.exitWith status))
      ∧ (∀ b : Bool,
          syslog_handler { cfg with failure_ignore_errors := b } r lvl t fmt args d1
            = syslog_handler cfg r lvl t fmt args d1
          ∧ i_syslog_error_handler { cfg with failure_ignore_errors := b } r t fmt args d1
            = i_syslog_error_handler cfg r t fmt args d1
          ∧ i_syslog_fatal_handler { cfg with failure_ignore_errors := b } r
              HandlerKind.syslogH r bo d1 bt LogType.fatal status fmt args
            = i_syslog_fatal_handler cfg r HandlerKind.syslogH r bo d1 bt LogType.fatal
                status fmt args) := by
  intro cfg r lvl t status fmt args d1 d2 bo bt
  refine ⟨rfl, ?_, ?_, ?_, fun b => ⟨rfl, rfl, rfl⟩⟩
  · by_cases h2 : 2 ≤ r
    · simp [syslog_handler, h2]
    · simp [syslog_handler, h2]
  · intro hr
    have h2 : ¬ (2 ≤ r) := by omega
    simp [i_syslog_error_handler, syslog_handler, h2]
  · intro hr
    have h2 : ¬ (2 ≤ r) := by omega
    have hret : (syslog_handler cfg r 2 LogType.fatal fmt args d1).ret = 0 := by
      simp [syslog_handler, h2]
    simp only [i_syslog_fatal_handler, hret]
    rw [if_neg (by rintro ⟨hh, -⟩; exact absurd hh (by norm_num))]
    by_cases hs : status = FATAL_OUTOFMEM
    · subst hs
      cases bo with
      | false => simp [default_fatal_finish]
      | true =>
        refine default_fatal_finish_fatal_oom_returned cfg HandlerKind.syslogH r true d1
          bt ?_
        simp [i_error, i_syslog_error_handler, syslog_handler, h2]
    · exact default_fatal_finish_fatal_no_oom cfg HandlerKind.syslogH r bo d1 bt status hs

theorem syslog_result_independent_of_delivery_witness :
    i_syslog_error_handler cfgOk 0 LogType.error ('x' :: []) [] false = ErrAction.returned
    ∧ i_syslog_fatal_handler cfgOk 1 HandlerKind.syslogH 1 true false [] LogType.fatal
        FATAL_DEFAULT ('x' :: []) [] = some (TermAction.exitWith FATAL_DEFAULT) :=
  ⟨(syslog_result_independent_of_delivery cfgOk 0 3 LogType.error FATAL_DEFAULT
      ('x' :: []) [] false false true []).2.2.1 (by decide),
   (syslog_result_independent_of_delivery cfgOk 1 2 LogType.fatal FATAL_DEFAULT
      ('x' :: []) [] false false true []).2.2.2.1 (by decide)⟩

theorem default_nested_max_le (cfg : FailCfg) (pfx fmt : List Char)
    (args : List (List Char)) :
    ∀ (n c : Nat), c ≤ 2 → (default_handler_nested cfg pfx fmt args c n).2.2 ≤ 2 := by
  intro n
  induction n with
  | zero =>
    intro c hc
    by_cases h2 : 2 ≤ c
    · simpa [default_handler_nested, h2] using hc
    · simp only [default_handler_nested, if_neg h2]
      omega
  | succ n ih =>
    intro c hc
    by_cases h2 : 2 ≤ c
    · simpa [default_handler_nested, h2] using hc
    · have h1 : c + 1 ≤ 2 := by omega
      simp only [default_handler_nested, if_neg h2]
      exact max_le h1 (ih (c + 1) h1)

theorem syslog_nested_max_le (cfg : FailCfg) (t : LogType) (fmt : List Char)
    (args : List (List Char)) :
    ∀ (n c : Nat), c ≤ 2 → (syslog_handler_nested cfg t fmt args c n).2.2 ≤ 2 := by
  intro n
  induction n with
  | zero =>
    intro c hc
    by_cases h2 : 2 ≤ c
    · simpa [syslog_handler_nested, h2] using hc
    · simp only [syslog_handler_nested, if_neg h2]
      omega
  | succ n ih =>
    intro c hc
    by_cases h2 : 2 ≤ c
    · simpa [syslog_handler_nested, h2] using hc
    · have h1 : c + 1 ≤ 2 := by omega
      simp only [syslog_handler_nested, if_neg h2]
      exact max_le h1 (ih (c + 1) h1)

theorem internal_nested_max_le (cfg : FailCfg) (tc : Char) (fmt : List Char)
    (args : List (List Char)) :
    ∀ (n c : Nat), c ≤ 2 → (internal_handler_nested cfg tc fmt args c n).2.2 ≤ 2 := by
  intro n
  induction n with
  | zero =>
    intro c hc
    by_cases h2 : 2 ≤ c
    · simpa [internal_handler_nested, h2] using hc
    · simp only [internal_handler_nested, if_neg h2]
      omega
  | succ n ih =>
    intro c hc
    by_cases h2 : 2 ≤ c
    · simpa [internal_handler_nested, h2] using hc
    · have h1 : c + 1 ≤ 2 := by omega
      simp only [internal_handler_nested, if_neg h2]
      exact max_le h1 (ih (c + 1) h1)

/-- Claim C7: for each handler family, the recursion counter never exceeds
the bound 2 during an invocation entered at a counter value at most 2 (in
particular for a fresh call at 0, however deep the nested re-triggering
goes), and a handler entered while its family's counter is already at the
bound returns failure immediately with no bytes handed to its destination
and no formatting performed. -/
theorem recursion_guard_bound :
    ∀ (cfg : FailCfg) (pfx fmt : List Char) (args : List (List Char)) (t : LogType)
      (tc : Char) (lvl : Nat) (d : Bool) (c n : Nat),
      (c ≤ 2 →
        (default_handler_nested cfg pfx fmt args c n).2.2 ≤ 2
        ∧ (syslog_handler_nested cfg t fmt args c n).2.2 ≤ 2
        ∧ (internal_handler_nested cfg tc fmt args c n).2.2 ≤ 2)
      ∧ (2 ≤ c →
        default_handler_nested cfg pfx fmt args c n = (-1, [], c)
        ∧ syslog_handler_nested cfg t fmt args c n = (-1, [], c)
        ∧ internal_handler_nested cfg tc fmt args c n = (-1, [], c)
        ∧ default_handler cfg c pfx fmt args = some ⟨-1, [], false⟩
        ∧ syslog_handler cfg c lvl t fmt args d = ⟨-1, none, false⟩
        ∧ internal_handler cfg c tc fmt args = ⟨-1, [], false⟩) := by
  intro cfg pfx fmt args t tc lvl d c n
  constructor
  · intro hc
    exact ⟨default_nested_max_le cfg pfx fmt args n c hc,
      syslog_nested_max_le cfg t fmt args n c hc,
      internal_nested_max_le cfg tc fmt args n c hc⟩
  · intro h2
    refine ⟨?_, ?_, ?_, ?_, ?_, ?_⟩ <;>
      cases n <;>
        simp [default_handler_nested, syslog_handler_nested, internal_handler_nested,
          default_handler, syslog_handler, internal_handler, h2]

theorem recursion_guard_bound_witness :
    (default_handler_nested cfgOk "Fatal: ".data ('x' :: []) [] 0 5).2.2 ≤ 2
    ∧ internal_handler_nested cfgOk 'E' ('x' :: []) [] 2 3 = (-1, [], 2) :=
  ⟨((recursion_guard_bound cfgOk "Fatal: ".data ('x' :: []) [] LogType.error 'E' 3 true
      0 5).1 (by decide)).1,
   ((recursion_guard_bound cfgOk "Fatal: ".data ('x' :: []) [] LogType.error 'E' 3 true
      2 3).2 (by decide)).2.2.1⟩

end Failures
